import Mathlib

/-!
Verification of `photo_watermark.py` (odfore/PhotoWatermark).

The Python program is shallowly embedded: pure helpers become Lean
functions; the filesystem / image-library effects are modelled by an
explicit environment of call outcomes and an explicit directory state.
Machine integers do not overflow in this program (Python ints are
unbounded), so `Nat`/`Int` are used directly.
-/

set_option maxRecDepth 4096

/-! ## Calendar model (CPython `datetime` constructor validation) -/

/-- A calendar date, the (year, month, day) of a Python `datetime`. -/
structure PyDate where
  year : Nat
  month : Nat
  day : Nat
deriving DecidableEq

/-- Gregorian leap-year rule used by `datetime`. -/
def isLeapYear (y : Nat) : Bool :=
  y % 4 = 0 && (y % 100 ≠ 0 || y % 400 = 0)

/-- Days in a month, as validated by the `datetime` constructor. -/
def daysInMonth (y m : Nat) : Nat :=
  if m = 2 then (if isLeapYear y then 29 else 28)
  else if m = 4 ∨ m = 6 ∨ m = 9 ∨ m = 11 then 30
  else 31

/-! ## `datetime.strptime` with the two formats of `extract_datetime`

CPython's `_strptime` compiles `'%Y:%m:%d %H:%M:%S'` to the regex
`(?P<Y>\d\d\d\d):(?P<m>1[0-2]|0[1-9]|[1-9]):(?P<d>3[0-1]|[1-2]\d|0[1-9]|[1-9]| [1-9])\s+(?P<H>2[0-3]|[0-1]\d|\d):(?P<M>[0-5]\d|\d):(?P<S>6[0-1]|[0-5]\d|\d)`
(the slash format replaces the two date separators by `/`), requires the
whole input to be consumed, and then the `datetime` constructor validates
the ranges (rejecting year 0 and leap seconds 60/61).  Each numeric field
is followed by a non-digit delimiter or the end of the input, so the
regex alternations below never need backtracking and are embedded as
deterministic first-match parsers.  `\s` is modelled by ASCII whitespace. -/

/-- Numeric value of an ASCII digit. -/
def digitVal (c : Char) : Nat := c.toNat - 48

/-- `(?P<Y>\d\d\d\d)`: exactly four digits. -/
def parseYear4 : List Char → Option (Nat × List Char)
  | c1 :: c2 :: c3 :: c4 :: rest =>
    if c1.isDigit && c2.isDigit && c3.isDigit && c4.isDigit then
      some (digitVal c1 * 1000 + digitVal c2 * 100 + digitVal c3 * 10 + digitVal c4, rest)
    else none
  | _ => none

/-- A single literal character (a compiled non-whitespace format literal). -/
def expectChar (c : Char) : List Char → Option (List Char)
  | x :: rest => if x = c then some rest else none
  | [] => none

/-- `(?P<m>1[0-2]|0[1-9]|[1-9])`. -/
def parseMonthRe : List Char → Option (Nat × List Char)
  | c1 :: c2 :: rest =>
    if c1 = '1' && '0' ≤ c2 && c2 ≤ '2' then some (10 + digitVal c2, rest)
    else if c1 = '0' && '1' ≤ c2 && c2 ≤ '9' then some (digitVal c2, rest)
    else if '1' ≤ c1 && c1 ≤ '9' then some (digitVal c1, c2 :: rest)
    else none
  | [c1] => if '1' ≤ c1 && c1 ≤ '9' then some (digitVal c1, []) else none
  | [] => none

/-- `(?P<d>3[0-1]|[1-2]\d|0[1-9]|[1-9]| [1-9])`. -/
def parseDayRe : List Char → Option (Nat × List Char)
  | c1 :: c2 :: rest =>
    if c1 = '3' && (c2 = '0' || c2 = '1') then some (30 + digitVal c2, rest)
    else if (c1 = '1' || c1 = '2') && c2.isDigit then some (10 * digitVal c1 + digitVal c2, rest)
    else if c1 = '0' && '1' ≤ c2 && c2 ≤ '9' then some (digitVal c2, rest)
    else if '1' ≤ c1 && c1 ≤ '9' then some (digitVal c1, c2 :: rest)
    else if c1 = ' ' && '1' ≤ c2 && c2 ≤ '9' then some (digitVal c2, rest)
    else none
  | [c1] => if '1' ≤ c1 && c1 ≤ '9' then some (digitVal c1, []) else none
  | [] => none

/-- `(?P<H>2[0-3]|[0-1]\d|\d)`. -/
def parseHourRe : List Char → Option (Nat × List Char)
  | c1 :: c2 :: rest =>
    if c1 = '2' && '0' ≤ c2 && c2 ≤ '3' then some (20 + digitVal c2, rest)
    else if (c1 = '0' || c1 = '1') && c2.isDigit then some (10 * digitVal c1 + digitVal c2, rest)
    else if c1.isDigit then some (digitVal c1, c2 :: rest)
    else none
  | [c1] => if c1.isDigit then some (digitVal c1, []) else none
  | [] => none

/-- `(?P<M>[0-5]\d|\d)`. -/
def parseMinuteRe : List Char → Option (Nat × List Char)
  | c1 :: c2 :: rest =>
    if '0' ≤ c1 && c1 ≤ '5' && c2.isDigit then some (10 * digitVal c1 + digitVal c2, rest)
    else if c1.isDigit then some (digitVal c1, c2 :: rest)
    else none
  | [c1] => if c1.isDigit then some (digitVal c1, []) else none
  | [] => none

/-- `(?P<S>6[0-1]|[0-5]\d|\d)`: the regex admits leap seconds 60/61,
which the `datetime` constructor then rejects. -/
def parseSecondRe : List Char → Option (Nat × List Char)
  | c1 :: c2 :: rest =>
    if c1 = '6' && (c2 = '0' || c2 = '1') then some (60 + digitVal c2, rest)
    else if '0' ≤ c1 && c1 ≤ '5' && c2.isDigit then some (10 * digitVal c1 + digitVal c2, rest)
    else if c1.isDigit then some (digitVal c1, c2 :: rest)
    else none
  | [c1] => if c1.isDigit then some (digitVal c1, []) else none
  | [] => none

/-- ASCII whitespace, for the `\s+` that a format-string blank compiles to. -/
def isPySpace (c : Char) : Bool :=
  c = ' ' || c = '\t' || c = '\n' || c = '\r' || c = '\x0b' || c = '\x0c'

/-- `\s+`: at least one whitespace character, consumed greedily. -/
def parseSpaces1 : List Char → Option (List Char)
  | c :: rest => if isPySpace c then some (rest.dropWhile isPySpace) else none
  | [] => none

/-- `datetime.strptime(s, fmt)` for `fmt = '%Y<sep>%m<sep>%d %H:%M:%S'`
(`sep` is `:` for the first format of `extract_datetime` and `/` for the
second), keeping the date part.  `none` models the `ValueError` the code
catches: a regex mismatch, unconverted trailing data, or a constructor
range error. -/
def strptimeDate (sep : Char) (s : String) : Option PyDate := do
  let (y, r1) ← parseYear4 s.data
  let r2 ← expectChar sep r1
  let (mo, r3) ← parseMonthRe r2
  let r4 ← expectChar sep r3
  let (d, r5) ← parseDayRe r4
  let r6 ← parseSpaces1 r5
  let (hh, r7) ← parseHourRe r6
  let r8 ← expectChar ':' r7
  let (mi, r9) ← parseMinuteRe r8
  let r10 ← expectChar ':' r9
  let (ss, r11) ← parseSecondRe r10
  if r11 = [] && 1 ≤ y && y ≤ 9999 && 1 ≤ mo && mo ≤ 12 && 1 ≤ d &&
      d ≤ daysInMonth y mo && hh ≤ 23 && mi ≤ 59 && ss ≤ 59 then
    some ⟨y, mo, d⟩
  else none

/-- Two-digit zero padding, as `strftime` `%m`/`%d` produce. -/
def pad2 (n : Nat) : String := if n < 10 then "0" ++ toString n else toString n

/-- `dt.strftime('%Y-%m-%d')`.  On the glibc platform the program runs on,
`%Y` prints the year unpadded. -/
def strftimeDate (d : PyDate) : String :=
  toString d.year ++ "-" ++ pad2 d.month ++ "-" ++ pad2 d.day

/-! ## `extract_datetime` (photo_watermark.py lines 45-81)

An EXIF mapping is embedded as an association list from tag name to a
string value; `key in exif_data and exif_data[key]` is presence of the
key with a non-empty value.  The loop over
`formats = ['%Y:%m:%d %H:%M:%S', '%Y/%m/%d %H:%M:%S']` is the loop over
the two date separators. -/

/-- `datetime_keys = ['DateTimeOriginal', 'DateTime', 'DateTimeDigitized']`. -/
def datetime_keys : List String := ["DateTimeOriginal", "DateTime", "DateTimeDigitized"]

/-- The key-selection loop: first key that is present with a truthy
(non-empty) value; `break` on success, otherwise try the next key. -/
def findDatetimeValue (exif : List (String × String)) : List String → Option String
  | [] => none
  | k :: ks =>
    match exif.lookup k with
    | some v => if v = "" then findDatetimeValue exif ks else some v
    | none => findDatetimeValue exif ks

/-- The format loop: first format that parses wins, its result is
reformatted with `strftime('%Y-%m-%d')`; `ValueError` means `continue`. -/
def tryFormats (v : String) : List Char → Option String
  | [] => none
  | sep :: rest =>
    match strptimeDate sep v with
    | some dt => some (strftimeDate dt)
    | none => tryFormats v rest

/-- `extract_datetime(exif_data)`: `None` for a falsy mapping, else the
key-selection loop followed by the format loop, `None` if either fails. -/
def extract_datetime (exif : List (String × String)) : Option String :=
  if exif.isEmpty then none
  else
    match findDatetimeValue exif datetime_keys with
    | none => none
    | some v => tryFormats v [':', '/']

/-! Spec-side restatement of claim C2, following the spec's words: select
the value of the first field that is present and non-empty among
`DateTimeOriginal`, `DateTime`, `DateTimeDigitized`; parse it against the
colon format and then the slash variant; on first success return the date
reformatted as `YYYY-MM-DD`; otherwise `None`. -/

/-- Spec-side field selection for C2. -/
def specSelectValue (exif : List (String × String)) : Option String :=
  let tryKey := fun (k : String) =>
    match exif.lookup k with
    | some v => if v = "" then none else some v
    | none => none
  tryKey "DateTimeOriginal" <|> tryKey "DateTime" <|> tryKey "DateTimeDigitized"

/-- Spec-side resolver for C2: selected value, colon format first, then
slash, reformatted on first success. -/
def extractDatetimeSpec (exif : List (String × String)) : Option String :=
  (specSelectValue exif).bind fun v =>
    (strptimeDate ':' v <|> strptimeDate '/' v).map strftimeDate

/-! ## Geometry resolver (photo_watermark.py lines 192-203)

The `position` dispatch inside `add_watermark`, with `margin = 10`.
Python `//` on ints is floor division, i.e. `Int.fdiv`. -/

/-- Anchor-to-coordinate resolution: the `if/elif` chain on `position`
over image size `(width, height)` and measured text size
`(text_width, text_height)`; the `else` arm is bottom-right. -/
def resolvePosition (width height text_width text_height : Int) (position : String) : Int × Int :=
  let margin : Int := 10
  if position = "top-left" then (margin, margin)
  else if position = "top-right" then (width - text_width - margin, margin)
  else if position = "bottom-left" then (margin, height - text_height - margin)
  else if position = "center" then
    ((width - text_width).fdiv 2, (height - text_height).fdiv 2)
  else (width - text_width - margin, height - text_height - margin)

/-! ## Effect environment

One processed image is a fixed path plus the outcomes of the external
calls the program makes on it.  `exifResult` is the value of
`image._getexif()` when the decode succeeds (`none` = no EXIF block or
`_getexif` raised); `mtimeDate` is the local calendar date of
`datetime.fromtimestamp(os.path.getmtime(path))`, `none` when that read
raises; `decodeOk` is whether `Image.open` and the subsequent pixel
operations succeed; `saveOk` whether `save` succeeds. -/

structure ImgEnv where
  fileExists : Bool
  decodeOk : Bool
  exifResult : Option (List (String × String))
  mtimeDate : Option PyDate
  saveOk : Bool
deriving DecidableEq

/-- `get_exif_data(image_path)` (lines 12-42): `None` when the file is
missing, when `Image.open`/`_getexif` raises, or when there is no EXIF
block; otherwise the decoded tag dictionary.  The extension check only
prints a warning and does not change the result. -/
def get_exif_data (env : ImgEnv) : Option (List (String × String)) :=
  if !env.fileExists then none
  else if !env.decodeOk then none
  else env.exifResult

/-- The filesystem-timestamp fallback of `create_watermark_text`
(lines 102-112): the mtime date when the file exists and the read
succeeds, else the fixed string. -/
def mtimeFallback (env : ImgEnv) : String :=
  if env.fileExists then
    match env.mtimeDate with
    | some d => strftimeDate d
    | none => "Unknown Date"
  else "Unknown Date"

/-- `create_watermark_text(image_path)` (lines 85-112): EXIF date if the
tag dictionary is truthy and yields one, else the mtime fallback. -/
def create_watermark_text (env : ImgEnv) : String :=
  let date_text : Option String :=
    match get_exif_data env with
    | some exif => if exif.isEmpty then none else extract_datetime exif
    | none => none
  match date_text with
  | some s => if s = "" then mtimeFallback env else s
  | none => mtimeFallback env

/-! ## `os.path` string functions (POSIX), embedded on `List Char` -/

/-- `posixpath.basename`: the suffix after the last `'/'`. -/
def basenameL (p : List Char) : List Char :=
  (p.reverse.takeWhile (fun c => c != '/')).reverse

/-- `p[:i]` where `i = p.rfind('/') + 1`: the head slice of
`posixpath.dirname` / `split`. -/
def headSlice (p : List Char) : List Char :=
  p.take (p.length - (basenameL p).length)

/-- `posixpath.dirname`: the head slice, with trailing slashes stripped
unless it is empty or all slashes. -/
def dirnameL (p : List Char) : List Char :=
  let head := headSlice p
  if head.any (fun c => c != '/') then
    (head.reverse.dropWhile (fun c => c == '/')).reverse
  else head

/-- `str.rfind(c)`: index of the last occurrence, `-1` if absent. -/
def rfindChar (p : List Char) (c : Char) : Int :=
  match p.reverse.findIdx? (fun x => x = c) with
  | some j => (p.length : Int) - 1 - j
  | none => -1

/-- `posixpath.splitext`: split at the last dot when it lies after the
last `'/'` and some character strictly between them is not a dot
(leading dots of the basename never start an extension). -/
def splitextL (p : List Char) : List Char × List Char :=
  let sepIndex := rfindChar p '/'
  let dotIndex := rfindChar p '.'
  if sepIndex < dotIndex then
    let between := (p.drop (sepIndex + 1).toNat).take (dotIndex - sepIndex - 1).toNat
    if between.any (fun c => c != '.') then
      (p.take dotIndex.toNat, p.drop dotIndex.toNat)
    else (p, [])
  else (p, [])

/-- `posixpath.join` for two components. -/
def joinL (a b : List Char) : List Char :=
  if b.head? = some '/' then b
  else if a = [] ∨ a.getLast? = some '/' then a ++ b
  else a ++ '/' :: b

/-- `os.path.basename` on strings. -/
def basename (p : String) : String := String.mk (basenameL p.data)

/-- `os.path.dirname` on strings. -/
def dirname (p : String) : String := String.mk (dirnameL p.data)

/-- `os.path.splitext` on strings. -/
def splitext (p : String) : String × String :=
  (String.mk (splitextL p.data).1, String.mk (splitextL p.data).2)

/-- `os.path.join` on strings. -/
def pathJoin (a b : String) : String := String.mk (joinL a.data b.data)

/-- The output-path computation of `process_image` (lines 252-261):
`join(dirname(p), splitext(basename(p))[0] + "_watermark")` joined with
`basename(p)`. -/
def watermarkOutputPath (image_path : String) : String :=
  let dir_name := dirname image_path
  let file_name := basename image_path
  let name := (splitext file_name).1
  let watermark_dir := pathJoin dir_name (name ++ "_watermark")
  pathJoin watermark_dir file_name

/-! ## Directory state, `add_watermark`, `process_image`, `main` -/

/-- The set of directories that exist, as a list of paths. -/
structure FSState where
  dirs : List String
deriving DecidableEq

/-- Result of one `add_watermark` / `process_image` call: `ok` is false
when the call raised (for `add_watermark` the exception is re-raised
after the diagnostic print); `fs` the directory state after the call;
`created` the directories created, in order. -/
structure RunResult where
  ok : Bool
  fs : FSState
  created : List String
deriving DecidableEq

/-- `add_watermark` (lines 152-229), effects only: `Image.open` failure
raises before anything else; otherwise the output directory is created
if absent (`os.makedirs` guarded by `os.path.exists`), then the save
either succeeds or raises.  Text measurement, geometry and compositing
happen in between and touch no files. -/
def add_watermark (env : ImgEnv) (output_path : String) (fs : FSState) : RunResult :=
  if !env.decodeOk then ⟨false, fs, []⟩
  else
    let output_dir := dirname output_path
    let (fs2, created) :=
      if fs.dirs.contains output_dir then (fs, ([] : List String))
      else (⟨output_dir :: fs.dirs⟩, [output_dir])
    if env.saveOk then ⟨true, fs2, created⟩ else ⟨false, fs2, created⟩

/-- `str.endswith` on character lists. -/
def endsWithL (p suf : List Char) : Bool :=
  p.drop (p.length - suf.length) == suf

/-- Extension check of `get_exif_data` (lines 29-31):
`image_path.lower().endswith(valid_extensions)`.  It only selects a
warning message; processing continues either way. -/
def isSupportedImagePath (p : String) : Bool :=
  [".jpg", ".jpeg", ".png", ".tiff", ".bmp"].any
    (fun e => endsWithL (p.data.map Char.toLower) e.data)

/-- `process_image` (lines 232-269): missing file returns `False` at
once; otherwise the watermark text and output path are computed and
`add_watermark` is called, any exception giving `False`. -/
def process_image (env : ImgEnv) (image_path : String) (fs : FSState) : RunResult :=
  if !env.fileExists then ⟨false, fs, []⟩
  else
    let _watermark_text := create_watermark_text env
    let output_path := watermarkOutputPath image_path
    add_watermark env output_path fs

/-- Parsed command-line arguments, after `argparse` (which already fixed
the arity of `--font-color` at three integers). -/
structure Args where
  image_path : String
  font_size : Int
  font_color : Int × Int × Int
  position : String
  opacity : Int
deriving DecidableEq

/-- The outcome of `main` (lines 272-309): an early `return` from the
boundary validation, or a `process_image` run with its result. -/
inductive MainOutcome where
  | invalidArgs : MainOutcome
  | processed : Bool → MainOutcome
deriving DecidableEq

/-- `all(0 <= c <= 255 for c in args.font_color)`. -/
def colorInRange (c : Int × Int × Int) : Bool :=
  0 ≤ c.1 && c.1 ≤ 255 && 0 ≤ c.2.1 && c.2.1 ≤ 255 && 0 ≤ c.2.2 && c.2.2 ≤ 255

/-- `0 <= args.opacity <= 255`. -/
def opacityInRange (o : Int) : Bool := 0 ≤ o && o ≤ 255

/-- `main`, effects only: the three validations in order
(`font_size <= 0`, a colour channel outside `[0,255]`, opacity outside
`[0,255]`) each print and `return` before any image work; otherwise
`process_image` runs. -/
def mainRun (args : Args) (env : ImgEnv) (fs : FSState) : MainOutcome × FSState × List String :=
  if args.font_size ≤ 0 then (.invalidArgs, fs, [])
  else if !colorInRange args.font_color then (.invalidArgs, fs, [])
  else if !opacityInRange args.opacity then (.invalidArgs, fs, [])
  else
    let r := process_image env args.image_path fs
    (.processed r.ok, r.fs, r.created)

/-- The process exit status of a `main` run: validation failures `return`
normally (status 0); `sys.exit(1)` happens exactly when `process_image`
returned `False`. -/
def mainExitCode (args : Args) (env : ImgEnv) (fs : FSState) : Nat :=
  match (mainRun args env fs).1 with
  | .invalidArgs => 0
  | .processed true => 0
  | .processed false => 1

/-! ## Theorems -/

/-- C1: the geometry resolver is a deterministic function returning
integer top-left coordinates: `top-left` gives `(10, 10)`; `top-right`
gives `(width - text_width - 10, 10)`; `bottom-left` gives
`(10, height - text_height - 10)`; `center` gives the floored halves of
the differences; `bottom-right` and any unrecognized anchor give
`(width - text_width - 10, height - text_height - 10)`; on a 1000x800
image with 100x30 text, `bottom-right` yields `(890, 760)` and `center`
yields `(450, 385)`. -/
theorem resolvePosition_spec (w h tw th : Int) :
    resolvePosition w h tw th "top-left" = (10, 10) ∧
    resolvePosition w h tw th "top-right" = (w - tw - 10, 10) ∧
    resolvePosition w h tw th "bottom-left" = (10, h - th - 10) ∧
    resolvePosition w h tw th "center" = ((w - tw).fdiv 2, (h - th).fdiv 2) ∧
    (∀ pos : String, pos ≠ "top-left" → pos ≠ "top-right" → pos ≠ "bottom-left" →
      pos ≠ "center" → resolvePosition w h tw th pos = (w - tw - 10, h - th - 10)) ∧
    resolvePosition 1000 800 100 30 "bottom-right" = (890, 760) ∧
    resolvePosition 1000 800 100 30 "center" = (450, 385) := by
  refine ⟨by simp [resolvePosition], by simp [resolvePosition], by simp [resolvePosition],
    by simp [resolvePosition], ?_, by decide, by decide⟩
  intro pos h1 h2 h3 h4
  simp [resolvePosition, h1, h2, h3, h4]

/-- Witness for C1: the unrecognized anchor `"weird"` resolves like
`bottom-right` on the 1000x800 example. -/
theorem resolvePosition_spec_witness :
    resolvePosition 1000 800 100 30 "weird" = (1000 - 100 - 10, 800 - 30 - 10) :=
  (resolvePosition_spec 1000 800 100 30).2.2.2.2.1 "weird"
    (by decide) (by decide) (by decide) (by decide)

/-- The mtime fallback is always one of the last two tiers. -/
theorem mtimeFallback_tiers (env : ImgEnv) :
    (∃ d, env.fileExists = true ∧ env.mtimeDate = some d ∧
      mtimeFallback env = strftimeDate d) ∨
    mtimeFallback env = "Unknown Date" := by
  unfold mtimeFallback
  cases hf : env.fileExists with
  | false => right; simp
  | true =>
    cases hm : env.mtimeDate with
    | none => right; simp
    | some d => left; exact ⟨d, rfl, rfl, by simp⟩

/-- C3: the date resolver is total — for every environment of external
outcomes it returns a string, which is an EXIF-derived date, the
formatted modification date, or the final fallback; no failure case
escapes the fallback chain. -/
theorem create_watermark_text_total (env : ImgEnv) :
    (∃ exif s, get_exif_data env = some exif ∧ extract_datetime exif = some s ∧
      create_watermark_text env = s) ∨
    (∃ d, env.fileExists = true ∧ env.mtimeDate = some d ∧
      create_watermark_text env = strftimeDate d) ∨
    create_watermark_text env = "Unknown Date" := by
  have fb : create_watermark_text env = mtimeFallback env →
      (∃ exif s, get_exif_data env = some exif ∧ extract_datetime exif = some s ∧
        create_watermark_text env = s) ∨
      (∃ d, env.fileExists = true ∧ env.mtimeDate = some d ∧
        create_watermark_text env = strftimeDate d) ∨
      create_watermark_text env = "Unknown Date" := by
    intro hcw
    rcases mtimeFallback_tiers env with ⟨d, h1, h2, h3⟩ | h
    · exact Or.inr (Or.inl ⟨d, h1, h2, hcw.trans h3⟩)
    · exact Or.inr (Or.inr (hcw.trans h))
  by_cases hgn : get_exif_data env = none
  · exact fb (by simp [create_watermark_text, hgn])
  · obtain ⟨exif, hg⟩ := Option.ne_none_iff_exists'.mp hgn
    by_cases he : exif.isEmpty
    · exact fb (by simp [create_watermark_text, hg, he])
    · by_cases hxn : extract_datetime exif = none
      · exact fb (by simp [create_watermark_text, hg, he, hxn])
      · obtain ⟨s, hx⟩ := Option.ne_none_iff_exists'.mp hxn
        by_cases hs : s = ""
        · exact fb (by simp [create_watermark_text, hg, he, hx, hs])
        · exact Or.inl ⟨exif, s, hg, hx, by simp [create_watermark_text, hg, he, hx, hs]⟩

/-- C4: when EXIF yields no date (metadata absent, decode failed, no
matching field, or unparseable value) but the file exists and its
modification time is readable, the resolver returns the modification
date formatted as `YYYY-MM-DD`. -/
theorem create_watermark_text_uses_mtime (env : ImgEnv) (d : PyDate)
    (hex : ∀ exif, get_exif_data env = some exif → extract_datetime exif = none)
    (hf : env.fileExists = true) (hm : env.mtimeDate = some d) :
    create_watermark_text env = strftimeDate d := by
  have hfb : mtimeFallback env = strftimeDate d := by simp [mtimeFallback, hf, hm]
  by_cases hgn : get_exif_data env = none
  · simp [create_watermark_text, hgn, hfb]
  · obtain ⟨exif, hg⟩ := Option.ne_none_iff_exists'.mp hgn
    by_cases he : exif.isEmpty
    · simp [create_watermark_text, hg, he, hfb]
    · simp [create_watermark_text, hg, he, hex exif hg, hfb]

/-- Witness for C4: a file with an unparseable `DateTimeOriginal` and a
readable mtime of 2024-05-06 gets the watermark text `"2024-05-06"`. -/
theorem create_watermark_text_uses_mtime_witness :
    create_watermark_text
      ⟨true, true, some [("DateTimeOriginal", "not a timestamp")], some ⟨2024, 5, 6⟩, true⟩ =
      strftimeDate ⟨2024, 5, 6⟩ :=
  create_watermark_text_uses_mtime _ _
    (fun exif hg => by
      have hx : exif = [("DateTimeOriginal", "not a timestamp")] := by
        simpa [get_exif_data] using hg.symm
      subst hx; decide)
    rfl rfl

/-- C5: when EXIF yields no date and the modification timestamp is also
unavailable (missing file or failed read), the resolver returns exactly
`"Unknown Date"`. -/
theorem create_watermark_text_unknown (env : ImgEnv)
    (hex : ∀ exif, get_exif_data env = some exif → extract_datetime exif = none)
    (hm : env.fileExists = false ∨ env.mtimeDate = none) :
    create_watermark_text env = "Unknown Date" := by
  have hfb : mtimeFallback env = "Unknown Date" := by
    rcases hm with hm | hm <;> simp [mtimeFallback, hm]
  by_cases hgn : get_exif_data env = none
  · simp [create_watermark_text, hgn, hfb]
  · obtain ⟨exif, hg⟩ := Option.ne_none_iff_exists'.mp hgn
    by_cases he : exif.isEmpty
    · simp [create_watermark_text, hg, he, hfb]
    · simp [create_watermark_text, hg, he, hex exif hg, hfb]

/-- Witness for C5: no EXIF block and an unreadable mtime give
`"Unknown Date"`. -/
theorem create_watermark_text_unknown_witness :
    create_watermark_text ⟨true, true, none, none, true⟩ = "Unknown Date" :=
  create_watermark_text_unknown _
    (fun exif hg => by simp [get_exif_data] at hg)
    (Or.inr rfl)

/-- Counterexample to C7: `photo.gif` is not among the supported
extensions, yet for an existing, decodable file at that path the run
succeeds and creates the output directory — the extension check only
prints a warning. -/
theorem process_image_unsupported_ext_succeeds :
    isSupportedImagePath "photo.gif" = false ∧
    (process_image ⟨true, true, none, some ⟨2023, 1, 1⟩, true⟩ "photo.gif" ⟨[]⟩).ok = true ∧
    (process_image ⟨true, true, none, some ⟨2023, 1, 1⟩, true⟩ "photo.gif" ⟨[]⟩).created =
      ["photo_watermark"] := by
  refine ⟨by decide, ?_, ?_⟩ <;> decide

/-- C7 (amended): a missing input path, or one whose image decode fails,
creates no output directory, leaves the directory state unchanged, and
makes `process_image` return failure. -/
theorem process_image_missing_or_undecodable (env : ImgEnv) (path : String) (fs : FSState)
    (h : env.fileExists = false ∨ env.decodeOk = false) :
    process_image env path fs = ⟨false, fs, []⟩ := by
  rcases h with h | h
  · simp [process_image, h]
  · cases hf : env.fileExists <;> simp [process_image, add_watermark, h, hf]

/-- Witness for the amended C7: a missing `photo.jpg` yields failure and
no directory. -/
theorem process_image_missing_witness :
    process_image ⟨false, true, none, none, true⟩ "photo.jpg" ⟨[]⟩ =
      ⟨false, ⟨[]⟩, []⟩ :=
  process_image_missing_or_undecodable _ _ _ (Or.inl rfl)

/-- C8: any of the three boundary validations failing (non-positive
font size, a colour channel outside `[0,255]`, opacity outside
`[0,255]`) makes `main` return before `process_image`: the outcome is
the validation error, the directory state is untouched and nothing is
created. -/
theorem mainRun_validates_before_io (args : Args) (env : ImgEnv) (fs : FSState)
    (h : args.font_size ≤ 0 ∨ colorInRange args.font_color = false ∨
         opacityInRange args.opacity = false) :
    mainRun args env fs = (.invalidArgs, fs, []) := by
  by_cases h1 : args.font_size ≤ 0
  · simp [mainRun, h1]
  · rcases h with h | h | h
    · exact absurd h h1
    · simp [mainRun, h1, h]
    · cases hc : colorInRange args.font_color <;> simp [mainRun, h1, hc, h]

/-- Witness for C8: `--opacity 300` is rejected with the directory state
untouched. -/
theorem mainRun_validates_before_io_witness :
    mainRun ⟨"photo.jpg", 40, (255, 255, 255), "bottom-right", 300⟩
        ⟨true, true, none, some ⟨2023, 1, 1⟩, true⟩ ⟨[]⟩ =
      (.invalidArgs, ⟨[]⟩, []) :=
  mainRun_validates_before_io _ _ _ (Or.inr (Or.inr (by decide)))

/-- C9: directory creation is idempotent.  On a successful run whose
output directory is absent, exactly that one directory is created; a
second run on the resulting state succeeds, creates nothing, and leaves
the state unchanged. -/
theorem process_image_dir_idempotent (env : ImgEnv) (path : String) (fs : FSState)
    (hex : env.fileExists = true) (hdec : env.decodeOk = true) (hsave : env.saveOk = true)
    (habs : fs.dirs.contains (dirname (watermarkOutputPath path)) = false) :
    (process_image env path fs).ok = true ∧
    (process_image env path fs).created = [dirname (watermarkOutputPath path)] ∧
    (process_image env path fs).fs.dirs = dirname (watermarkOutputPath path) :: fs.dirs ∧
    (process_image env path (process_image env path fs).fs).ok = true ∧
    (process_image env path (process_image env path fs).fs).created = [] ∧
    (process_image env path (process_image env path fs).fs).fs = (process_image env path fs).fs := by
  have habs2 : dirname (watermarkOutputPath path) ∉ fs.dirs := by simpa using habs
  have h1 : process_image env path fs =
      ⟨true, ⟨dirname (watermarkOutputPath path) :: fs.dirs⟩, [dirname (watermarkOutputPath path)]⟩ := by
    simp [process_image, add_watermark, hex, hdec, hsave, habs2]
  have h2 : process_image env path ⟨dirname (watermarkOutputPath path) :: fs.dirs⟩ =
      ⟨true, ⟨dirname (watermarkOutputPath path) :: fs.dirs⟩, []⟩ := by
    simp [process_image, add_watermark, hex, hdec, hsave]
  rw [h1]
  exact ⟨rfl, rfl, rfl, by rw [h2], by rw [h2], by rw [h2]⟩

/-- Witness for C9: running on `/a/b.jpg` from an empty directory state
creates `/a/b_watermark` once; the rerun creates nothing. -/
theorem process_image_dir_idempotent_witness :
    (process_image ⟨true, true, none, some ⟨2023, 1, 1⟩, true⟩ "/a/b.jpg" ⟨[]⟩).ok = true ∧
    (process_image ⟨true, true, none, some ⟨2023, 1, 1⟩, true⟩ "/a/b.jpg" ⟨[]⟩).created =
      [dirname (watermarkOutputPath "/a/b.jpg")] ∧
    (process_image ⟨true, true, none, some ⟨2023, 1, 1⟩, true⟩ "/a/b.jpg" ⟨[]⟩).fs.dirs =
      dirname (watermarkOutputPath "/a/b.jpg") :: FSState.dirs ⟨[]⟩ ∧
    (process_image ⟨true, true, none, some ⟨2023, 1, 1⟩, true⟩ "/a/b.jpg"
      (process_image ⟨true, true, none, some ⟨2023, 1, 1⟩, true⟩ "/a/b.jpg" ⟨[]⟩).fs).ok = true ∧
    (process_image ⟨true, true, none, some ⟨2023, 1, 1⟩, true⟩ "/a/b.jpg"
      (process_image ⟨true, true, none, some ⟨2023, 1, 1⟩, true⟩ "/a/b.jpg" ⟨[]⟩).fs).created = [] ∧
    (process_image ⟨true, true, none, some ⟨2023, 1, 1⟩, true⟩ "/a/b.jpg"
      (process_image ⟨true, true, none, some ⟨2023, 1, 1⟩, true⟩ "/a/b.jpg" ⟨[]⟩).fs).fs =
      (process_image ⟨true, true, none, some ⟨2023, 1, 1⟩, true⟩ "/a/b.jpg" ⟨[]⟩).fs :=
  process_image_dir_idempotent _ _ _ rfl rfl rfl (by decide)

/-- C10: a failed boundary validation returns normally from `main`, so
the process exits with status 0; a non-zero exit status is always 1 and
happens only when `process_image` reported failure. -/
theorem mainExitCode_spec (args : Args) (env : ImgEnv) (fs : FSState) :
    ((args.font_size ≤ 0 ∨ colorInRange args.font_color = false ∨
       opacityInRange args.opacity = false) → mainExitCode args env fs = 0) ∧
    (mainExitCode args env fs ≠ 0 → mainExitCode args env fs = 1 ∧
       (process_image env args.image_path fs).ok = false) := by
  constructor
  · intro h
    by_cases h1 : args.font_size ≤ 0
    · simp [mainExitCode, mainRun, h1]
    · rcases h with h | h | h
      · exact absurd h h1
      · simp [mainExitCode, mainRun, h1, h]
      · cases hc : colorInRange args.font_color <;> simp [mainExitCode, mainRun, h1, hc, h]
  · intro h
    by_cases h1 : args.font_size ≤ 0
    · exact absurd (by simp [mainExitCode, mainRun, h1]) h
    · cases hc : colorInRange args.font_color
      · exact absurd (by simp [mainExitCode, mainRun, h1, hc]) h
      · cases ho : opacityInRange args.opacity
        · exact absurd (by simp [mainExitCode, mainRun, h1, hc, ho]) h
        · cases hp : (process_image env args.image_path fs).ok
          · exact ⟨by simp [mainExitCode, mainRun, h1, hc, ho, hp], rfl⟩
          · exact absurd (by simp [mainExitCode, mainRun, h1, hc, ho, hp]) h

/-- Witness for C10: with a bad font size the exit status is 0. -/
theorem mainExitCode_spec_witness :
    mainExitCode ⟨"photo.jpg", -1, (255, 255, 255), "bottom-right", 128⟩
      ⟨true, true, none, some ⟨2023, 1, 1⟩, true⟩ ⟨[]⟩ = 0 :=
  (mainExitCode_spec _ _ _).1 (Or.inl (by decide))

/-- Every success of the format loop is a reformatted parsed date. -/
theorem tryFormats_strftime (v : String) (l : List Char) (s : String)
    (h : tryFormats v l = some s) : ∃ d, s = strftimeDate d := by
  induction l with
  | nil => simp [tryFormats] at h
  | cons sep rest ih =>
    rcases hp : strptimeDate sep v with _ | dt
    · simp only [tryFormats, hp] at h
      exact ih h
    · simp only [tryFormats, hp, Option.some.injEq] at h
      exact ⟨dt, h.symm⟩

/-- A formatted date is never the empty string. -/
theorem strftimeDate_ne_empty (d : PyDate) : strftimeDate d ≠ "" := by
  intro h
  have h2 := congrArg String.length h
  simp only [strftimeDate, String.length_append] at h2
  have hd1 : ("-" : String).length = 1 := rfl
  have hd0 : ("" : String).length = 0 := rfl
  rw [hd1, hd0] at h2
  omega

/-- When the EXIF tier produces a date it is the resolver's result. -/
theorem create_watermark_text_exif (env : ImgEnv) (exif : List (String × String)) (s : String)
    (hg : get_exif_data env = some exif) (hx : extract_datetime exif = some s) :
    create_watermark_text env = s := by
  have hne : ¬exif.isEmpty := by
    intro he
    simp [extract_datetime, he] at hx
  have hs : s ≠ "" := by
    obtain ⟨v, hv⟩ : ∃ v, findDatetimeValue exif datetime_keys = some v := by
      cases hfv : findDatetimeValue exif datetime_keys
      · exact absurd hx (by simp [extract_datetime, hne, hfv])
      · exact ⟨_, rfl⟩
    have ht : tryFormats v [':', '/'] = some s := by
      simpa [extract_datetime, hne, hv] using hx
    obtain ⟨d, rfl⟩ := tryFormats_strftime v _ s ht
    exact strftimeDate_ne_empty d
  simp [create_watermark_text, hg, hne, hx, hs]

/-- C2: `extract_datetime` selects the first present, non-empty field
among `DateTimeOriginal`, `DateTime`, `DateTimeDigitized`, parses it
against the colon format and then the slash variant, returns the first
success reformatted as `YYYY-MM-DD`, and otherwise `None`; moreover an
EXIF-derived date is the resolver output regardless of the filesystem
timestamp in the environment. -/
theorem extract_datetime_conforms (exif : List (String × String)) :
    extract_datetime exif = extractDatetimeSpec exif ∧
    (∀ (env : ImgEnv) (s : String), get_exif_data env = some exif →
      extract_datetime exif = some s → create_watermark_text env = s) := by
  refine ⟨?_, fun env s hg hx => create_watermark_text_exif env exif s hg hx⟩
  have hfmt : ∀ v : String, tryFormats v [':', '/'] =
      (strptimeDate ':' v <|> strptimeDate '/' v).map strftimeDate := by
    intro v
    cases h1 : strptimeDate ':' v <;> cases h2 : strptimeDate '/' v <;>
      simp [tryFormats, h1, h2]
  have hstep : ∀ (k : String) (ks : List String),
      findDatetimeValue exif (k :: ks) =
        ((match exif.lookup k with
          | some v => if v = "" then none else some v
          | none => none) <|> findDatetimeValue exif ks) := by
    intro k ks
    cases h : exif.lookup k with
    | none => simp [findDatetimeValue, h]
    | some v => by_cases hv : v = "" <;> simp [findDatetimeValue, h, hv]
  have hsel : findDatetimeValue exif datetime_keys = specSelectValue exif := by
    rw [datetime_keys, hstep, hstep, hstep]
    simp [specSelectValue, findDatetimeValue]
  cases exif with
  | nil => rfl
  | cons hd tl =>
    have hne : (hd :: tl).isEmpty = false := rfl
    simp only [extract_datetime, extractDatetimeSpec, hne, Bool.false_eq_true, if_false, hsel]
    cases hv : specSelectValue (hd :: tl) with
    | none => simp
    | some v => simp [hfmt v]

/-- Witness for C2: `DateTimeOriginal` beats `DateTime` and the
filesystem timestamp, the colon format parses, and the date is
reformatted. -/
theorem extract_datetime_conforms_witness :
    create_watermark_text
      ⟨true, true,
       some [("DateTime", "2020/03/04 05:06:07"), ("DateTimeOriginal", "2019:12:31 23:59:59")],
       some ⟨2024, 5, 6⟩, true⟩ = "2019-12-31" :=
  (extract_datetime_conforms
      [("DateTime", "2020/03/04 05:06:07"), ("DateTimeOriginal", "2019:12:31 23:59:59")]).2
    _ _ rfl (by decide)

/-- `takeWhile` runs through a satisfying block and stops at the first
failing element. -/
theorem takeWhile_append_stop (p : Char → Bool) (l t : List Char) (x : Char)
    (hl : ∀ c ∈ l, p c = true) (hx : p x = false) :
    (l ++ x :: t).takeWhile p = l := by
  induction l with
  | nil => simp [List.takeWhile_cons, hx]
  | cons a l ih =>
    have ha : p a = true := hl a (List.mem_cons_self a l)
    simp [List.takeWhile_cons, ha, ih (fun c hc => hl c (List.mem_cons_of_mem a hc))]

/-- `basename` of `<dir>/<slash-free name>` is the name. -/
theorem basenameL_concat (d f : List Char) (hf : ∀ c ∈ f, c ≠ '/') :
    basenameL (d ++ '/' :: f) = f := by
  unfold basenameL
  rw [List.reverse_append, List.reverse_cons, List.append_assoc, List.singleton_append]
  have h1 : ∀ c ∈ f.reverse, (c != '/') = true := by
    intro c hc
    simpa [bne_iff_ne] using hf c (List.mem_reverse.mp hc)
  have h2 : (('/' : Char) != '/') = false := by decide
  rw [takeWhile_append_stop (fun c => c != '/') f.reverse d.reverse '/' h1 h2,
    List.reverse_reverse]

/-- The head slice `p[:rfind(sep)+1]` of `<dir>/<slash-free name>`. -/
theorem headSlice_concat (d f : List Char) (hf : ∀ c ∈ f, c ≠ '/') :
    headSlice (d ++ '/' :: f) = d ++ ['/'] := by
  unfold headSlice
  rw [basenameL_concat d f hf]
  have hlen : (d ++ '/' :: f).length - f.length = (d ++ ['/']).length := by
    simp only [List.length_append, List.length_cons, List.length_nil]
    omega
  rw [hlen]
  have hsplit : d ++ '/' :: f = (d ++ ['/']) ++ f := by simp
  rw [hsplit, List.take_left]

/-- `dirname` of `<dir>/<slash-free name>` is the directory, when the
directory is non-empty and does not end in a slash. -/
theorem dirnameL_concat (d f : List Char) (hd : d ≠ []) (hdl : d.getLast? ≠ some '/')
    (hf : ∀ c ∈ f, c ≠ '/') :
    dirnameL (d ++ '/' :: f) = d := by
  unfold dirnameL
  rw [headSlice_concat d f hf]
  obtain ⟨c, hc⟩ : ∃ c, d.getLast? = some c := by
    cases hd2 : d.getLast? with
    | none => exact absurd (List.getLast?_eq_none_iff.mp hd2) hd
    | some c => exact ⟨c, rfl⟩
  have hcne : c ≠ '/' := fun h => hdl (h ▸ hc)
  have hcmem : c ∈ d := List.mem_of_mem_getLast? (Option.mem_def.mpr hc)
  have hany : (d ++ ['/']).any (fun x => x != '/') = true := by
    simp only [List.any_append, Bool.or_eq_true, List.any_eq_true]
    exact Or.inl ⟨c, hcmem, by simp [bne_iff_ne, hcne]⟩
  rw [if_pos hany]
  have hrev : d.reverse.head? = some c := by rw [List.head?_reverse, hc]
  cases hd3 : d.reverse with
  | nil => rw [hd3] at hrev; simp at hrev
  | cons a t =>
    rw [hd3] at hrev
    have ha : a = c := by simpa using hrev
    subst ha
    calc ((d ++ ['/']).reverse.dropWhile (fun x => x == '/')).reverse
        = (('/' :: d.reverse).dropWhile (fun x => x == '/')).reverse := by
          simp [List.reverse_append]
      _ = (d.reverse.dropWhile (fun x => x == '/')).reverse := by
          simp [List.dropWhile_cons]
      _ = ((a :: t).dropWhile (fun x => x == '/')).reverse := by rw [hd3]
      _ = (a :: t).reverse := by simp [List.dropWhile_cons, hcne]
      _ = d := by rw [← hd3, List.reverse_reverse]

/-- The stem returned by `splitext` is the whole input or a prefix of it. -/
theorem splitextL_fst_cases (p : List Char) :
    (splitextL p).1 = p ∨ ∃ n, (splitextL p).1 = p.take n := by
  simp only [splitextL]
  split
  · split
    · exact Or.inr ⟨_, rfl⟩
    · exact Or.inl rfl
  · exact Or.inl rfl

/-- Characters of the `splitext` stem are characters of the input. -/
theorem splitextL_fst_subset (p : List Char) : ∀ c ∈ (splitextL p).1, c ∈ p := by
  intro c hc
  rcases splitextL_fst_cases p with h | ⟨n, h⟩
  · rwa [h] at hc
  · rw [h] at hc
    exact List.take_subset n p hc

/-- The full join composition of `process_image` at the list level:
for `<dir>/<slash-free name>` it produces
`<dir>/<stem>_watermark/<name>`. -/
theorem joinL_watermark (dd ff : List Char) (hd : dd ≠ []) (hdl : dd.getLast? ≠ some '/')
    (hf : ff ≠ []) (hfs : ∀ c ∈ ff, c ≠ '/') :
    joinL (joinL (dirnameL (dd ++ '/' :: ff))
        ((splitextL (basenameL (dd ++ '/' :: ff))).1 ++ "_watermark".data))
      (basenameL (dd ++ '/' :: ff))
    = dd ++ '/' :: ((splitextL ff).1 ++ "_watermark".data ++ '/' :: ff) := by
  rw [basenameL_concat dd ff hfs, dirnameL_concat dd ff hd hdl hfs]
  have hhead : ¬((splitextL ff).1 ++ "_watermark".data).head? = some '/' := by
    cases hN : (splitextL ff).1 with
    | nil => decide
    | cons a t =>
      have ha : a ∈ ff :=
        splitextL_fst_subset ff a (by rw [hN]; exact List.mem_cons_self a t)
      simp [List.cons_append, hfs a ha]
  have hj1 : joinL dd ((splitextL ff).1 ++ "_watermark".data) =
      dd ++ '/' :: ((splitextL ff).1 ++ "_watermark".data) := by
    unfold joinL
    rw [if_neg hhead, if_neg (not_or.mpr ⟨hd, hdl⟩)]
  rw [hj1]
  have hfh : ¬ff.head? = some '/' := by
    cases hF : ff with
    | nil => exact absurd hF hf
    | cons a t => simp [hfs a (hF.symm ▸ List.mem_cons_self a t)]
  have hwm : ("_watermark".data).getLast? = some 'k' := by decide
  have hlast : (dd ++ '/' :: ((splitextL ff).1 ++ "_watermark".data)).getLast? =
      some 'k' := by
    have h0 : ('/' :: ((splitextL ff).1 ++ "_watermark".data)) =
        ['/'] ++ ((splitextL ff).1 ++ "_watermark".data) := rfl
    rw [List.getLast?_append, h0, List.getLast?_append, List.getLast?_append, hwm]
    rfl
  have hne : dd ++ '/' :: ((splitextL ff).1 ++ "_watermark".data) ≠ [] := by simp
  have hj2 : joinL (dd ++ '/' :: ((splitextL ff).1 ++ "_watermark".data)) ff =
      (dd ++ '/' :: ((splitextL ff).1 ++ "_watermark".data)) ++ '/' :: ff := by
    unfold joinL
    rw [if_neg hfh, if_neg (not_or.mpr ⟨hne, by rw [hlast]; decide⟩)]
  rw [hj2]
  simp [List.append_assoc]

/-- C6: for an input `<dir>/<name>` (directory non-empty, not
slash-terminated; filename non-empty and slash-free) the resolved
output path is the input's directory, joined with the extensionless
basename plus `_watermark`, joined with the unchanged original
filename. -/
theorem watermarkOutputPath_spec (d f : String)
    (hd : d.data ≠ []) (hdl : d.data.getLast? ≠ some '/')
    (hf : f.data ≠ []) (hfs : '/' ∉ f.data) :
    watermarkOutputPath (d ++ "/" ++ f) =
      d ++ "/" ++ (splitext f).1 ++ "_watermark" ++ "/" ++ f := by
  have hfs2 : ∀ c ∈ f.data, c ≠ '/' := fun c hc he => hfs (he ▸ hc)
  apply String.ext
  have hP : (d ++ "/" ++ f).data = d.data ++ '/' :: f.data := by simp
  calc (watermarkOutputPath (d ++ "/" ++ f)).data
      = joinL (joinL (dirnameL ((d ++ "/" ++ f)).data)
          ((splitextL (basenameL ((d ++ "/" ++ f)).data)).1 ++ "_watermark".data))
        (basenameL ((d ++ "/" ++ f)).data) := rfl
    _ = joinL (joinL (dirnameL (d.data ++ '/' :: f.data))
          ((splitextL (basenameL (d.data ++ '/' :: f.data))).1 ++ "_watermark".data))
        (basenameL (d.data ++ '/' :: f.data)) := by rw [hP]
    _ = d.data ++ '/' :: ((splitextL f.data).1 ++ "_watermark".data ++ '/' :: f.data) :=
        joinL_watermark d.data f.data hd hdl hf hfs2
    _ = (d ++ "/" ++ (splitext f).1 ++ "_watermark" ++ "/" ++ f).data := by
        simp [splitext, List.append_assoc]

/-- Witness for C6: `/photos/img.jpg` maps to
`/photos/img_watermark/img.jpg`. -/
theorem watermarkOutputPath_spec_witness :
    watermarkOutputPath ("/photos" ++ "/" ++ "img.jpg") =
      "/photos" ++ "/" ++ (splitext "img.jpg").1 ++ "_watermark" ++ "/" ++ "img.jpg" :=
  watermarkOutputPath_spec "/photos" "img.jpg" (by decide) (by decide) (by decide) (by decide)
